import Mathlib

/-!
Verification development for the forge-filament asset-cataloging app.

The definitions below are a shallow embedding of the intake-detail page
(the `promote` workflow, taxonomy resolution, tag parsing, `stripExt`) and
of the admin bulk-fix page (`canApply`, the preview-reset effect, and
`applyFix`).  Remote-database tables are modelled as lists of rows, the
object store as a list of (bucket, path) pairs, and each remote call that
can fail is given an explicit error-injection slot in an environment
structure, mirroring the strictly sequential awaits of the source.
-/

namespace ForgeFilament

/-! ## JavaScript string primitives used by the pages -/

/-- Whitespace recognised by the JS `String.prototype.trim`. -/
def isJsWs (c : Char) : Bool :=
  c == ' ' || c == '\t' || c == '\n' || c == '\r' || c == '\x0b' || c == '\x0c'

/-- `trim` on the character list: drop whitespace from both ends. -/
def jsTrimL (l : List Char) : List Char :=
  ((l.dropWhile isJsWs).reverse.dropWhile isJsWs).reverse

/-- JS `s.trim()`. -/
def jsTrim (s : String) : String := String.mk (jsTrimL s.data)

/-- JS `a || b` on strings: the empty string is falsy. -/
def jsOr (a b : String) : String := if a = "" then b else a

/-- JS `s.toUpperCase()` (ASCII letters, as used for the APPLY token). -/
def jsToUpper (s : String) : String := String.mk (s.data.map Char.toUpper)

/-- JS `s.split(",")` on the character list; always returns a nonempty list
of pieces, with `[[]]` for the empty input. -/
def splitCommaL : List Char → List (List Char)
  | [] => [[]]
  | c :: cs =>
    if c = ',' then [] :: splitCommaL cs
    else
      match splitCommaL cs with
      | [] => [[c]]
      | p :: ps => (c :: p) :: ps

/-- Index of the last `.` in the list, `none` when there is no dot.
Models the JS `filename.lastIndexOf(".")` (with `none` for `-1`). -/
def lastDot? : List Char → Option Nat
  | [] => none
  | c :: cs =>
    match lastDot? cs with
    | some j => some (j + 1)
    | none => if c = '.' then some 0 else none

/-- `stripExt` from the intake detail page: cut the name at the last dot,
returning the name unchanged when the last dot is absent or at index 0
(the source tests `i <= 0` on the `lastIndexOf` result). -/
def stripExt (s : String) : String :=
  match lastDot? s.data with
  | none => s
  | some 0 => s
  | some (i + 1) => String.mk (s.data.take (i + 1))

/-- The `tags` memo of the intake pages: split the tags text on commas,
trim each piece, drop the falsy (empty) pieces. -/
def tags (tagsText : String) : List String :=
  (((splitCommaL tagsText.data).map jsTrimL).filter (fun l => !l.isEmpty)).map String.mk

/-! ## Data model: rows of the remote relational store -/

/-- `intake_items.status`. -/
inductive Status where
  | unsorted
  | promoted
  | archived
deriving DecidableEq, Repr

structure IntakeItem where
  id : String
  raw_name : Option String
  status : Status
  category : Option String
  property : Option String
  sub_property : Option String
  notes : Option String
  tags : List String
deriving DecidableEq, Repr

structure IntakeFile where
  id : String
  intake_item_id : String
  file_name : String
  bucket : String
  object_path : String
  size_bytes : Option Nat
  mime_type : Option String
deriving DecidableEq, Repr

structure Asset where
  id : String
  title : String
  name : String
  category : String
  property : String
  sub_property : Option String
  tags : List String
  notes : Option String
  created_by : String
deriving DecidableEq, Repr

structure AssetFile where
  asset_id : String
  bucket : String
  object_path : String
  file_name : String
  mime_type : Option String
  size_bytes : Option Nat
deriving DecidableEq, Repr

structure AuditEntry where
  actor : String
  action : String
  target_type : String
  target_id : Option String
deriving DecidableEq, Repr

/-- The tables touched by the two workflows. -/
structure Store where
  intake_items : List IntakeItem
  intake_files : List IntakeFile
  assets : List Asset
  asset_files : List AssetFile
  audit_log : List AuditEntry
deriving DecidableEq, Repr

/-- The object store: the set of (bucket, object path) pairs that exist. -/
def ObjStore := List (String × String)
deriving DecidableEq, Repr

/-! ## Taxonomy field resolution on the intake detail page -/

/-- The add-new dropdown sentinel. -/
def ADD_NEW : String := "__ADD_NEW__"

/-- Client-side form state of the intake detail page. -/
structure FormState where
  rawName : String
  categoryPick : String
  categoryNew : String
  propertyPick : String
  propertyNew : String
  subPropertyPick : String
  subPropertyNew : String
  notes : String
  tagsText : String
deriving DecidableEq, Repr

/-- The `effectiveCategory` memo. -/
def effectiveCategory (f : FormState) : String :=
  if f.categoryPick = ADD_NEW then jsTrim f.categoryNew else jsTrim f.categoryPick

/-- The `effectiveProperty` memo. -/
def effectiveProperty (f : FormState) : String :=
  if f.propertyPick = ADD_NEW then jsTrim f.propertyNew else jsTrim f.propertyPick

/-- The `effectiveSubProperty` memo. -/
def effectiveSubProperty (f : FormState) : String :=
  if f.subPropertyPick = ADD_NEW then jsTrim f.subPropertyNew else jsTrim f.subPropertyPick

/-- Changing the category selection: the `onChange` handler plus the effect
keyed on `[categoryPick, categoryNew]` that clears all downstream picks and
add-new texts. -/
def setCategoryPickF (v : String) (s : FormState) : FormState :=
  { s with categoryPick := v, propertyPick := "", propertyNew := "",
           subPropertyPick := "", subPropertyNew := "" }

/-- Typing in the add-new category text: same downstream-clearing effect. -/
def setCategoryNewF (v : String) (s : FormState) : FormState :=
  { s with categoryNew := v, propertyPick := "", propertyNew := "",
           subPropertyPick := "", subPropertyNew := "" }

/-- Changing the property selection: the effect keyed on
`[propertyPick, propertyNew]` clears the sub-property pick and text. -/
def setPropertyPickF (v : String) (s : FormState) : FormState :=
  { s with propertyPick := v, subPropertyPick := "", subPropertyNew := "" }

/-- Typing in the add-new property text. -/
def setPropertyNewF (v : String) (s : FormState) : FormState :=
  { s with propertyNew := v, subPropertyPick := "", subPropertyNew := "" }

/-- Changing the sub-property selection: no clearing effect is attached. -/
def setSubPropertyPickF (v : String) (s : FormState) : FormState :=
  { s with subPropertyPick := v }

/-- Typing in the add-new sub-property text: no clearing effect. -/
def setSubPropertyNewF (v : String) (s : FormState) : FormState :=
  { s with subPropertyNew := v }

/-! ## Bulk-fix page state machine -/

/-- The taxonomy field selector of the bulk-fix page. -/
inductive FieldKey where
  | category
  | property
  | sub_property
deriving DecidableEq, Repr

/-- Client-side state of the bulk-fix page. -/
structure BulkState where
  field : FieldKey
  fromValue : String
  toValue : String
  includeIntake : Bool
  previewRan : Bool
  previewCountAssets : Option Nat
  previewCountIntake : Option Nat
  previewIds : List String
  confirmText : String
  busy : Bool
  msg : Option String
  err : Option String
deriving DecidableEq, Repr

/-- The `canApply` guard; the Apply button is rendered with
`disabled={!canApply}`. -/
def canApply (s : BulkState) : Bool :=
  s.previewRan && !s.busy &&
  !(jsTrim s.fromValue == "") && !(jsTrim s.toValue == "") &&
  !(jsTrim s.fromValue == jsTrim s.toValue) &&
  decide (0 < s.previewCountAssets.getD 0) &&
  (jsToUpper (jsTrim s.confirmText) == "APPLY")

/-- `resetPreview`: drop the preview flag, both counts and the sample ids. -/
def resetPreview (s : BulkState) : BulkState :=
  { s with previewRan := false, previewCountAssets := none,
           previewCountIntake := none, previewIds := [] }

/-- The effect keyed on `[field, fromValue, toValue, includeIntake]`:
any parameter change resets the preview, clears the banner messages and
empties the confirmation text. -/
def onParamEdit (s : BulkState) : BulkState :=
  let s1 := resetPreview s
  { s1 with msg := none, err := none, confirmText := "" }

/-- Editing the field selector. -/
def setFieldB (v : FieldKey) (s : BulkState) : BulkState :=
  onParamEdit { s with field := v }

/-- Editing the FROM value. -/
def setFromValueB (v : String) (s : BulkState) : BulkState :=
  onParamEdit { s with fromValue := v }

/-- Editing the TO value. -/
def setToValueB (v : String) (s : BulkState) : BulkState :=
  onParamEdit { s with toValue := v }

/-- Toggling the include-staging checkbox. -/
def setIncludeIntakeB (b : Bool) (s : BulkState) : BulkState :=
  onParamEdit { s with includeIntake := b }

/-- Read the selected taxonomy column of an asset row. -/
def getAssetField (a : Asset) : FieldKey → Option String
  | .category => some a.category
  | .property => some a.property
  | .sub_property => a.sub_property

/-- Write the selected taxonomy column of an asset row. -/
def setAssetField (a : Asset) : FieldKey → String → Asset
  | .category, v => { a with category := v }
  | .property, v => { a with property := v }
  | .sub_property, v => { a with sub_property := some v }

/-- Read the selected taxonomy column of an intake item row. -/
def getIntakeField (it : IntakeItem) : FieldKey → Option String
  | .category => it.category
  | .property => it.property
  | .sub_property => it.sub_property

/-- Write the selected taxonomy column of an intake item row. -/
def setIntakeField (it : IntakeItem) : FieldKey → String → IntakeItem
  | .category, v => { it with category := some v }
  | .property, v => { it with property := some v }
  | .sub_property, v => { it with sub_property := some v }

/-- Failure injection for the three remote calls of `applyFix`. -/
structure BulkEnv where
  assetsUpdErr : Option String
  intakeUpdErr : Option String
  auditFail : Bool

/-- The remote operations `applyFix` can issue, in issue order. -/
inductive BulkOp where
  | assetsUpdate
  | intakeUpdate
  | audit
deriving DecidableEq, Repr

/-- The `assets` table after the catalog update of `applyFix`. -/
def bulkAssetsUpdated (assets : List Asset) (fld : FieldKey) (frm toV : String) :
    List Asset :=
  assets.map (fun a => if getAssetField a fld = some frm then setAssetField a fld toV else a)

/-- The `intake_items` table after the optional staging update (rows whose
field matches and whose status is `unsorted`). -/
def bulkIntakeUpdated (items : List IntakeItem) (fld : FieldKey) (frm toV : String) :
    List IntakeItem :=
  items.map (fun it =>
    if getIntakeField it fld = some frm ∧ it.status = Status.unsorted
    then setIntakeField it fld toV else it)

/-- `applyFix`: the guard re-checks, then the catalog update, then the
optional staging update, then the best-effort audit insert.  Returns the
outcome, the store after the calls that actually ran, and the list of
remote operations that were issued, in order. -/
def applyFix (env : BulkEnv) (userId : String) (s : BulkState) (st : Store) :
    Except String Unit × Store × List BulkOp :=
  let frm := jsTrim s.fromValue
  let toV := jsTrim s.toValue
  if s.previewRan = false then
    (.error "Run Preview first (Apply is disabled until preview completes).", st, [])
  else if frm = "" then (.error "FROM value is required.", st, [])
  else if toV = "" then (.error "TO value is required.", st, [])
  else if frm = toV then (.error "FROM and TO cannot be the same.", st, [])
  else if s.previewCountAssets.getD 0 ≤ 0 then
    (.error "Preview shows 0 matching assets. Nothing to apply.", st, [])
  else if jsToUpper (jsTrim s.confirmText) ≠ "APPLY" then
    (.error "Type APPLY in the confirmation box to run the bulk update.", st, [])
  else
    match env.assetsUpdErr with
    | some e => (.error ("Assets update failed: " ++ e), st, [.assetsUpdate])
    | none =>
      let st1 := { st with assets := bulkAssetsUpdated st.assets s.field frm toV }
      if s.includeIntake then
        match env.intakeUpdErr with
        | some e => (.error ("Intake update failed: " ++ e), st1, [.assetsUpdate, .intakeUpdate])
        | none =>
          let st2 := { st1 with
            intake_items := bulkIntakeUpdated st1.intake_items s.field frm toV }
          let st3 := if env.auditFail then st2 else
            { st2 with audit_log := st2.audit_log ++
                [{ actor := userId, action := "bulk_fix_metadata",
                   target_type := "assets", target_id := none }] }
          (.ok (), st3, [.assetsUpdate, .intakeUpdate, .audit])
      else
        let st3 := if env.auditFail then st1 else
          { st1 with audit_log := st1.audit_log ++
              [{ actor := userId, action := "bulk_fix_metadata",
                 target_type := "assets", target_id := none }] }
        (.ok (), st3, [.assetsUpdate, .audit])

/-! ## The promote workflow -/

/-- Failure injection and external data for the sequential remote calls of
`promote`.  Per-file slots are indexed by position in the re-fetched file
list; `token` models `crypto.randomUUID()`; `blobType` and `blobSize` are
the type and size the fetched blob reports. -/
structure PromoteEnv where
  filesSelectErr : Option String
  assetInsertErr : Option String
  newAssetId : String
  signedUrlErr : Nat → Option String
  fetchOk : Nat → Bool
  fetchStatus : Nat → Nat
  blobType : Nat → String
  blobSize : Nat → Nat
  token : Nat → String
  uploadErr : Nat → Option String
  afInsertErr : Option String
  statusUpdateErr : Option String
  delSelectErr : Option String
  removeErr : String → Option String
  delDeleteErr : Option String
  auditFail : Bool

/-- Outcome of a `promote` invocation as surfaced to the operator. -/
inductive PromoteResult where
  | noop (msg : String)
  | ok (assetId : String) (msg : String)
  | error (e : String)
deriving DecidableEq, Repr

/-- Message shown when the item is no longer `unsorted`. -/
def alreadyPromotedMsg : String := "✅ Already promoted. You can finalize this intake item."

/-- Success banner of `promote`. -/
def promoteSuccessMsg (n : Nat) : String :=
  "✅ File addition complete. Promoted " ++ toString n ++
  " file(s) to Assets and removed Intake originals."

/-- The `finalName` computation of `promote`:
`(rawName || item.raw_name || "").trim() || (files.length ? stripExt(files[0].file_name) : "")`. -/
def resolvedName (rawName : String) (itemRawName : Option String)
    (files : List IntakeFile) : String :=
  let base := jsTrim (jsOr rawName (jsOr (itemRawName.getD "") ""))
  jsOr base (match files with | [] => "" | f :: _ => stripExt f.file_name)

/-- `originalName.replaceAll("/", "_")`. -/
def sanitizeSlashes (s : String) : String :=
  String.mk (s.data.map (fun c => if c = '/' then '_' else c))

/-- The mime type stored for a copied file: `f.mime_type || blob.type || null`. -/
def chosenMime (fileMime : Option String) (blobType : String) : Option String :=
  let m := jsOr (fileMime.getD "") blobType
  if m = "" then none else some m

/-- The pending `asset_files` row built for the i-th copied file. -/
def mkAssetFile (env : PromoteEnv) (assetId : String) (i : Nat) (f : IntakeFile) :
    AssetFile :=
  { asset_id := assetId
    bucket := "assets"
    object_path := assetId ++ "/" ++ env.token i ++ "-" ++ sanitizeSlashes f.file_name
    file_name := f.file_name
    mime_type := chosenMime f.mime_type (env.blobType i)
    size_bytes := some (f.size_bytes.getD (env.blobSize i)) }

/-- The asset row inserted by `promote`, built from the resolved name, the
effective taxonomy values, the tags and notes of the form, and the acting
user as creator. -/
def promotedAsset (env : PromoteEnv) (userId : String) (item : IntakeItem)
    (files : List IntakeFile) (form : FormState) : Asset :=
  { id := env.newAssetId
    title := resolvedName form.rawName item.raw_name files
    name := resolvedName form.rawName item.raw_name files
    category := effectiveCategory form
    property := effectiveProperty form
    sub_property := if effectiveSubProperty form = "" then none
      else some (effectiveSubProperty form)
    tags := tags form.tagsText
    notes := if jsTrim form.notes = "" then none else some (jsTrim form.notes)
    created_by := userId }

/-- The copy loop of `promote`: for each staged file in order, sign a URL,
fetch, and upload into the `assets` bucket; the first failure aborts and the
object store keeps the uploads made so far. -/
def copyFiles (env : PromoteEnv) (assetId : String) :
    Nat → List IntakeFile → ObjStore → Except String (List AssetFile) × ObjStore
  | _, [], os => (.ok [], os)
  | i, f :: fs, os =>
    match env.signedUrlErr i with
    | some e => (.error e, os)
    | none =>
      if env.fetchOk i = false then
        (.error ("Failed to download \"" ++ f.file_name ++ "\" from intake (HTTP " ++
          toString (env.fetchStatus i) ++ ")."), os)
      else
        match env.uploadErr i with
        | some e => (.error e, os)
        | none =>
          match copyFiles env assetId (i + 1) fs
              (("assets", (mkAssetFile env assetId i f).object_path) :: os) with
          | (.ok afs, os2) => (.ok (mkAssetFile env assetId i f :: afs), os2)
          | (.error e, os2) => (.error e, os2)

/-- Distinct elements in first-appearance order (accumulator holds the
elements already seen): the iteration order of the `byBucket` map built by
`deleteIntakeOriginals`. -/
def firstUniqAux (seen : List String) : List String → List String
  | [] => []
  | b :: bs =>
    if seen.contains b then firstUniqAux seen bs
    else b :: firstUniqAux (b :: seen) bs

/-- Distinct elements in first-appearance order. -/
def firstUniq (l : List String) : List String := firstUniqAux [] l

/-- One `storage.remove` call per bucket, in map order; a failing call
leaves the object store as the previous calls left it. -/
def removeBuckets (env : PromoteEnv) (rows : List IntakeFile) :
    List String → ObjStore → Except String Unit × ObjStore
  | [], os => (.ok (), os)
  | b :: bs, os =>
    match env.removeErr b with
    | some e => (.error ("Storage delete failed (" ++ b ++ "): " ++ e), os)
    | none =>
      let paths := (rows.filter (fun f => jsOr f.bucket "intake" == b)).map
        (fun f => f.object_path)
      removeBuckets env rows bs
        (os.filter (fun o => !(o.1 == b && paths.contains o.2)))

/-- `deleteIntakeOriginals`: re-read the intake file rows of the item,
remove their objects bucket by bucket, then delete the rows; returns the
number of files deleted (0 when none remain, which is not an error). -/
def deleteIntakeOriginals (env : PromoteEnv) (intakeItemId : String)
    (st : Store) (os : ObjStore) : Except String Nat × Store × ObjStore :=
  match env.delSelectErr with
  | some e => (.error e, st, os)
  | none =>
    let rows := st.intake_files.filter (fun f => f.intake_item_id == intakeItemId)
    if rows.length = 0 then (.ok 0, st, os)
    else
      match removeBuckets env rows (firstUniq (rows.map (fun f => jsOr f.bucket "intake"))) os with
      | (.error e, os1) => (.error e, st, os1)
      | (.ok _, os1) =>
        match env.delDeleteErr with
        | some e => (.error e, st, os1)
        | none =>
          (.ok rows.length,
           { st with intake_files :=
               st.intake_files.filter (fun f => f.intake_item_id != intakeItemId) },
           os1)

/-- The `promote` workflow of the intake detail page.  `item` and `files`
are the client-side loaded state; the store rows are re-fetched inside.
Returns the surfaced outcome together with the store and object store
after the calls that actually ran. -/
def promote (env : PromoteEnv) (userId itemId : String) (item : IntakeItem)
    (files : List IntakeFile) (form : FormState) (st : Store) (os : ObjStore) :
    PromoteResult × Store × ObjStore :=
  if item.status ≠ Status.unsorted then
    (.noop alreadyPromotedMsg, st, os)
  else
    let finalName := resolvedName form.rawName item.raw_name files
    let finalCategory := effectiveCategory form
    let finalProperty := effectiveProperty form
    if finalName = "" then (.error "Name is required before promoting.", st, os)
    else if finalCategory = "" then (.error "Category is required before promoting.", st, os)
    else if finalProperty = "" then (.error "Property is required before promoting.", st, os)
    else
      match env.filesSelectErr with
      | some e => (.error e, st, os)
      | none =>
        let intakeFiles := List.insertionSort (fun a b => a.file_name ≤ b.file_name)
          (st.intake_files.filter (fun f => f.intake_item_id == itemId))
        if intakeFiles.length = 0 then (.error "No files found to promote.", st, os)
        else
          match env.assetInsertErr with
          | some e => (.error e, st, os)
          | none =>
            let assetId := env.newAssetId
            let st1 := { st with assets := st.assets ++
              [promotedAsset env userId item files form] }
            match copyFiles env assetId 0 intakeFiles os with
            | (.error e, os1) => (.error e, st1, os1)
            | (.ok newAssetFiles, os1) =>
              match env.afInsertErr with
              | some e => (.error e, st1, os1)
              | none =>
                let st2 := { st1 with asset_files := st1.asset_files ++ newAssetFiles }
                match env.statusUpdateErr with
                | some e => (.error e, st2, os1)
                | none =>
                  let promotedItems := st2.intake_items.map (fun it =>
                    if it.id = itemId then { it with status := Status.promoted } else it)
                  let st3 := { st2 with intake_items := promotedItems }
                  match deleteIntakeOriginals env itemId st3 os1 with
                  | (.error e, st4, os2) => (.error e, st4, os2)
                  | (.ok _, st4, os2) =>
                    let st5 := if env.auditFail then st4 else
                      { st4 with audit_log := st4.audit_log ++
                          [{ actor := userId, action := "intake_promote_and_cleanup",
                             target_type := "asset", target_id := some assetId }] }
                    (.ok assetId (promoteSuccessMsg intakeFiles.length), st5, os2)

/-! ## Spec-side predicates and concrete fixtures -/

/-- The Idle state the bulk-fix page returns to after a parameter edit:
preview flag, counts and sample ids cleared, confirmation text cleared,
Apply disabled. -/
def IdleCleared (s : BulkState) : Prop :=
  s.previewRan = false ∧ s.previewCountAssets = none ∧ s.previewCountIntake = none ∧
  s.previewIds = [] ∧ s.confirmText = "" ∧ canApply s = false

/-- The name-resolution chain as the specification words it: the trimmed
explicit edited name, else the trimmed stored name, else the first file
name with its extension stripped.  Kept separate from `resolvedName`
(which mirrors the source) so the two can be compared. -/
def resolvedNameClaimed (rawName : String) (itemRawName : Option String)
    (files : List IntakeFile) : String :=
  if jsTrim rawName ≠ "" then jsTrim rawName
  else if jsTrim (itemRawName.getD "") ≠ "" then jsTrim (itemRawName.getD "")
  else match files with | [] => "" | f :: _ => stripExt f.file_name

/-- The amended name-resolution chain: the non-empty-or-fallback choice is
made on the raw strings first and the trim is applied to the chosen value;
only a choice whose trim is empty falls through to the file name. -/
def resolvedNameAmended (rawName : String) (itemRawName : Option String)
    (files : List IntakeFile) : String :=
  let chosen := if rawName = "" then itemRawName.getD "" else rawName
  if jsTrim chosen = "" then
    match files with | [] => "" | f :: _ => stripExt f.file_name
  else jsTrim chosen

/-- A no-failure promote environment for concrete runs. -/
def wEnv : PromoteEnv :=
  { filesSelectErr := none, assetInsertErr := none, newAssetId := "A1",
    signedUrlErr := fun _ => none, fetchOk := fun _ => true, fetchStatus := fun _ => 200,
    blobType := fun _ => "image/png", blobSize := fun _ => 7, token := fun _ => "tok",
    uploadErr := fun _ => none, afInsertErr := none, statusUpdateErr := none,
    delSelectErr := none, removeErr := fun _ => none, delDeleteErr := none,
    auditFail := false }

/-- A staged file row for item `I1` named `photo.jpg`. -/
def wFile : IntakeFile :=
  { id := "F1", intake_item_id := "I1", file_name := "photo.jpg", bucket := "intake",
    object_path := "2024-05/photo.jpg", size_bytes := some 5, mime_type := none }

/-- An unsorted intake item. -/
def wItem : IntakeItem :=
  { id := "I1", raw_name := some "My item", status := .unsorted, category := none,
    property := none, sub_property := none, notes := none, tags := [] }

/-- The same item after promotion. -/
def wItemPromoted : IntakeItem := { wItem with status := .promoted }

/-- A filled-in metadata form. -/
def wForm : FormState :=
  { rawName := "My item", categoryPick := "Armor", categoryNew := "",
    propertyPick := "Stark", propertyNew := "", subPropertyPick := "",
    subPropertyNew := "", notes := "", tagsText := "a, b" }

/-- A form whose category is picked through the add-new sentinel. -/
def wFormAdd : FormState :=
  { rawName := "", categoryPick := ADD_NEW, categoryNew := "Armor",
    propertyPick := "", propertyNew := "", subPropertyPick := "",
    subPropertyNew := "", notes := "", tagsText := "" }

/-- A store holding the unsorted item `I1` with its single staged file. -/
def wStore : Store :=
  { intake_items := [wItem], intake_files := [wFile], assets := [],
    asset_files := [], audit_log := [] }

/-- A store with no staged files for `I1`. -/
def wStoreNoFiles : Store := { wStore with intake_files := [] }

/-- The object store holding the staged original. -/
def wOs : ObjStore := [("intake", "2024-05/photo.jpg")]

/-- A bulk-fix state right after a successful preview of 3 matches, with
the confirmation token typed and the staging toggle set. -/
def wBulkReady : BulkState :=
  { field := .category, fromValue := "Helmte", toValue := "Helmet",
    includeIntake := true, previewRan := true, previewCountAssets := some 3,
    previewCountIntake := some 1, previewIds := ["a1", "a2", "a3"],
    confirmText := "APPLY", busy := false, msg := none, err := none }

/-- The same bulk-fix state before any preview ran. -/
def wBulkIdle : BulkState :=
  { wBulkReady with
    previewRan := false
    previewCountAssets := none
    previewCountIntake := none
    previewIds := [] }

/-- A bulk environment where the catalog update succeeds and the staging
update fails. -/
def wBulkEnv : BulkEnv :=
  { assetsUpdErr := none, intakeUpdErr := some "boom", auditFail := false }

/-! ## Helper lemmas on the string primitives -/

theorem head?_dropWhile_ws (p : Char → Bool) (l : List Char) {c : Char}
    (h : (l.dropWhile p).head? = some c) : p c = false := by
  induction l with
  | nil => simp [List.dropWhile] at h
  | cons a as ih =>
    rw [List.dropWhile_cons] at h
    split at h
    · exact ih h
    · simp only [List.head?_cons, Option.some.injEq] at h
      subst h
      simpa using ‹¬ p a = true›

theorem dropWhile_eq_self_of_head (p : Char → Bool) (l : List Char)
    (h : ∀ c, l.head? = some c → p c = false) : l.dropWhile p = l := by
  cases l with
  | nil => rfl
  | cons a as =>
    rw [List.dropWhile_cons, if_neg]
    simp [h a rfl]

theorem getLast?_dropWhile (p : Char → Bool) (l : List Char)
    (h : l.dropWhile p ≠ []) : (l.dropWhile p).getLast? = l.getLast? := by
  induction l with
  | nil => simp [List.dropWhile] at h
  | cons a as ih =>
    by_cases hp : p a = true
    · rw [List.dropWhile_cons, if_pos hp] at h ⊢
      have has : as ≠ [] := by
        intro he
        rw [he] at h
        simp [List.dropWhile] at h
      obtain ⟨b, bs, rfl⟩ := List.exists_cons_of_ne_nil has
      rw [ih h, List.getLast?_cons_cons]
    · rw [List.dropWhile_cons, if_neg hp]

theorem jsTrimL_head? {l : List Char} {c : Char}
    (h : (jsTrimL l).head? = some c) : isJsWs c = false := by
  unfold jsTrimL at h
  rw [List.head?_reverse] at h
  have hne : ((l.dropWhile isJsWs).reverse.dropWhile isJsWs) ≠ [] := by
    intro he
    rw [he] at h
    simp at h
  rw [getLast?_dropWhile _ _ hne, List.getLast?_reverse] at h
  exact head?_dropWhile_ws _ _ h

theorem jsTrimL_getLast? {l : List Char} {c : Char}
    (h : (jsTrimL l).getLast? = some c) : isJsWs c = false := by
  unfold jsTrimL at h
  rw [List.getLast?_reverse] at h
  exact head?_dropWhile_ws _ _ h

theorem jsTrimL_idem (l : List Char) : jsTrimL (jsTrimL l) = jsTrimL l := by
  have h1 : (jsTrimL l).dropWhile isJsWs = jsTrimL l :=
    dropWhile_eq_self_of_head _ _ (fun c hc => jsTrimL_head? hc)
  have h2 : (jsTrimL l).reverse.dropWhile isJsWs = (jsTrimL l).reverse :=
    dropWhile_eq_self_of_head _ _ (fun c hc => by
      rw [List.head?_reverse] at hc
      exact jsTrimL_getLast? hc)
  conv_lhs => rw [jsTrimL, h1, h2, List.reverse_reverse]

theorem jsTrim_mk (l : List Char) : jsTrim (String.mk l) = String.mk (jsTrimL l) := rfl

theorem jsTrim_idem (s : String) : jsTrim (jsTrim s) = jsTrim s := by
  show String.mk (jsTrimL (jsTrimL s.data)) = String.mk (jsTrimL s.data)
  rw [jsTrimL_idem]

theorem splitCommaL_no_comma (l : List Char) (h : ',' ∉ l) : splitCommaL l = [l] := by
  induction l with
  | nil => rfl
  | cons c cs ih =>
    have hc : c ≠ ',' := fun he => h (he ▸ List.mem_cons_self c cs)
    have hcs : ',' ∉ cs := fun hm => h (List.mem_cons_of_mem c hm)
    rw [splitCommaL, if_neg hc, ih hcs]

theorem lastDot?_eq_none_iff (l : List Char) : lastDot? l = none ↔ '.' ∉ l := by
  induction l with
  | nil => simp [lastDot?]
  | cons c cs ih =>
    by_cases hc : c = '.'
    · subst hc
      constructor
      · intro h
        rw [lastDot?] at h
        cases hcs : lastDot? cs with
        | some j => rw [hcs] at h; simp at h
        | none => rw [hcs] at h; simp at h
      · intro h
        exact absurd (List.mem_cons_self _ _) h
    · constructor
      · intro h
        rw [lastDot?] at h
        cases hcs : lastDot? cs with
        | some j => rw [hcs] at h; simp at h
        | none =>
          intro hm
          rcases List.mem_cons.mp hm with rfl | hm2
          · exact hc rfl
          · exact (ih.mp hcs) hm2
      · intro h
        have hnotcs : '.' ∉ cs := fun hm => h (List.mem_cons_of_mem _ hm)
        rw [lastDot?, ih.mpr hnotcs, if_neg hc]

theorem lastDot?_some_spec (l : List Char) (i : Nat) (h : lastDot? l = some i) :
    (l.drop i).head? = some '.' ∧ '.' ∉ l.drop (i + 1) := by
  induction l generalizing i with
  | nil => simp [lastDot?] at h
  | cons c cs ih =>
    rw [lastDot?] at h
    cases hcs : lastDot? cs with
    | some j =>
      rw [hcs] at h
      simp only [Option.some.injEq] at h
      subst h
      have hspec := ih j hcs
      constructor
      · simpa using hspec.1
      · simpa using hspec.2
    | none =>
      rw [hcs] at h
      by_cases hc : c = '.'
      · rw [if_pos hc] at h
        simp only [Option.some.injEq] at h
        subst h
        refine ⟨by simp [hc], ?_⟩
        simpa using (lastDot?_eq_none_iff cs).mp hcs
      · rw [if_neg hc] at h
        simp at h

/-! ## C9: stripExt -/

/-- C9: `stripExt` removes only the suffix after the last dot; it returns
the filename unchanged when there is no dot or the only dot leads the name,
and it never turns a non-empty filename into the empty string. -/
theorem stripExt_spec :
    (∀ s : String, '.' ∉ s.data → stripExt s = s) ∧
    (∀ s : String, s.data.head? = some '.' → '.' ∉ s.data.tail → stripExt s = s) ∧
    (∀ s : String, s ≠ "" → stripExt s ≠ "") ∧
    (∀ (s : String) (i : Nat), lastDot? s.data = some i → 0 < i →
      stripExt s = String.mk (s.data.take i) ∧
      (s.data.drop i).head? = some '.' ∧ '.' ∉ s.data.drop (i + 1)) := by
  refine ⟨?_, ?_, ?_, ?_⟩
  · intro s h
    rw [stripExt, (lastDot?_eq_none_iff s.data).mpr h]
  · intro s hhead htail
    obtain ⟨l, hl⟩ : ∃ l, s.data = '.' :: l := by
      cases hd : s.data with
      | nil => rw [hd] at hhead; simp at hhead
      | cons a as =>
        rw [hd] at hhead
        simp only [List.head?_cons, Option.some.injEq] at hhead
        exact ⟨as, by rw [hhead]⟩
    have htl : '.' ∉ l := by
      rw [hl] at htail
      simpa using htail
    rw [stripExt, hl, lastDot?, (lastDot?_eq_none_iff l).mpr htl, if_pos rfl]
  · intro s hne hstrip
    have hdata : s.data ≠ [] := by
      intro hd
      exact hne (by cases s; simp_all)
    rw [stripExt] at hstrip
    split at hstrip
    · exact hne hstrip
    · exact hne hstrip
    · rename_i k hk
      have hlist : s.data.take (k + 1) = [] := by
        have := congrArg String.data hstrip
        simpa using this
      rw [List.take_eq_nil_iff] at hlist
      rcases hlist with h | h
      · exact absurd h (by simp)
      · exact hdata h
  · intro s i h hpos
    obtain ⟨k, rfl⟩ : ∃ k, i = k + 1 := ⟨i - 1, by omega⟩
    refine ⟨by rw [stripExt, h], ?_, ?_⟩
    · exact (lastDot?_some_spec s.data _ h).1
    · exact (lastDot?_some_spec s.data _ h).2

/-- Witness for C9 at the filename `photo.jpg` (last dot at index 5). -/
theorem stripExt_spec_witness :
    lastDot? ("photo.jpg" : String).data = some 5 ∧ 0 < 5 ∧
      (stripExt "photo.jpg" = String.mk (("photo.jpg" : String).data.take 5) ∧
       (("photo.jpg" : String).data.drop 5).head? = some '.' ∧
       '.' ∉ ("photo.jpg" : String).data.drop (5 + 1)) :=
  ⟨by decide, by decide, stripExt_spec.2.2.2 "photo.jpg" 5 (by decide) (by decide)⟩

/-! ## C10: the tags derivation -/

/-- C10: every tag produced by the tags memo (used verbatim by save and by
promote) is non-empty and trim-invariant, and an empty or all-whitespace
tags text yields no tags at all. -/
theorem tags_wellformed :
    (∀ txt t : String, t ∈ tags txt → t ≠ "" ∧ jsTrim t = t) ∧
    tags "" = [] ∧
    (∀ txt : String, (∀ c ∈ txt.data, isJsWs c = true) → tags txt = []) := by
  refine ⟨?_, rfl, ?_⟩
  · intro txt t ht
    rw [tags] at ht
    simp only [List.mem_map, List.mem_filter] at ht
    obtain ⟨l, ⟨hl, hne⟩, rfl⟩ := ht
    obtain ⟨p, _, rfl⟩ := hl
    have hlne : jsTrimL p ≠ [] := by
      intro he
      rw [he] at hne
      simp at hne
    constructor
    · intro he
      have := congrArg String.data he
      simp only at this
      exact hlne this
    · rw [jsTrim_mk, jsTrimL_idem]
  · intro txt hws
    have hnc : ',' ∉ txt.data := by
      intro hm
      have := hws ',' hm
      simp [isJsWs] at this
    have hall : txt.data.dropWhile isJsWs = [] := by
      rw [List.dropWhile_eq_nil_iff]
      intro c hc
      exact hws c hc
    rw [tags, splitCommaL_no_comma _ hnc]
    simp [jsTrimL, hall]

/-- Witness for C10 on the concrete tags text `" ok , "`. -/
theorem tags_wellformed_witness :
    ("ok" : String) ∈ tags " ok , " ∧ (("ok" : String) ≠ "" ∧ jsTrim "ok" = "ok") :=
  ⟨by decide, tags_wellformed.1 " ok , " "ok" (by decide)⟩

/-! ## C4: the Apply guard -/

/-- C4: the Apply button is rendered with `disabled={!canApply}`, so it is
disabled whenever any of the six guard conditions fails: preview ran,
trimmed from-value non-empty, trimmed to-value non-empty, the two trimmed
values differ, previewed asset count positive, trimmed confirmation text
case-insensitively equal to APPLY. -/
theorem canApply_requires_guards (s : BulkState)
    (h : ¬(s.previewRan = true ∧ jsTrim s.fromValue ≠ "" ∧ jsTrim s.toValue ≠ "" ∧
           jsTrim s.fromValue ≠ jsTrim s.toValue ∧ 0 < s.previewCountAssets.getD 0 ∧
           jsToUpper (jsTrim s.confirmText) = "APPLY")) :
    canApply s = false := by
  cases hca : canApply s
  · rfl
  · exfalso
    apply h
    rw [canApply] at hca
    simp only [Bool.and_eq_true, Bool.not_eq_true', beq_iff_eq, beq_eq_false_iff_ne,
      decide_eq_true_eq] at hca
    exact ⟨hca.1.1.1.1.1.1, hca.1.1.1.1.2, hca.1.1.1.2, hca.1.1.2, hca.1.2, hca.2⟩

/-- Witness for C4: with no preview run, Apply is disabled. -/
theorem canApply_requires_guards_witness :
    ¬(wBulkIdle.previewRan = true ∧ jsTrim wBulkIdle.fromValue ≠ "" ∧
      jsTrim wBulkIdle.toValue ≠ "" ∧
      jsTrim wBulkIdle.fromValue ≠ jsTrim wBulkIdle.toValue ∧
      0 < wBulkIdle.previewCountAssets.getD 0 ∧
      jsToUpper (jsTrim wBulkIdle.confirmText) = "APPLY") ∧
    canApply wBulkIdle = false :=
  ⟨by decide, canApply_requires_guards wBulkIdle (by decide)⟩

/-! ## C5: parameter edits invalidate the preview -/

/-- C5: after a preview has run, editing the field selector, the from-value,
the to-value or the include-staging toggle resets the page to Idle (preview
flag, counts and sample ids cleared, confirmation text cleared) and thereby
disables Apply until Preview is re-run. -/
theorem paramEdit_resets_preview (s : BulkState) (hprev : s.previewRan = true) :
    (∀ v, v ≠ s.field → IdleCleared (setFieldB v s)) ∧
    (∀ v, v ≠ s.fromValue → IdleCleared (setFromValueB v s)) ∧
    (∀ v, v ≠ s.toValue → IdleCleared (setToValueB v s)) ∧
    (∀ b, b ≠ s.includeIntake → IdleCleared (setIncludeIntakeB b s)) := by
  refine ⟨fun v _ => ?_, fun v _ => ?_, fun v _ => ?_, fun b _ => ?_⟩ <;>
    simp [IdleCleared, setFieldB, setFromValueB, setToValueB, setIncludeIntakeB,
      onParamEdit, resetPreview, canApply]

/-- Witness for C5: editing the from-value after the preview of
`wBulkReady` clears the preview state and disables Apply. -/
theorem paramEdit_resets_preview_witness :
    wBulkReady.previewRan = true ∧ ("x" ≠ wBulkReady.fromValue) ∧
    IdleCleared (setFromValueB "x" wBulkReady) :=
  ⟨rfl, by decide, (paramEdit_resets_preview wBulkReady rfl).2.1 "x" (by decide)⟩

/-! ## C8: taxonomy pick-or-add-new resolution -/

/-- C8: the effective value of each taxonomy field is the trimmed free text
under the add-new sentinel and the trimmed selection otherwise (selecting
add-new for category and typing Armor yields Armor); changing the category
selection clears the property and sub-property selections and their add-new
texts, changing the property selection clears the sub-property selection,
and the reverse directions clear nothing. -/
theorem taxonomy_resolution (s : FormState) :
    ((s.categoryPick = ADD_NEW → effectiveCategory s = jsTrim s.categoryNew) ∧
     (s.categoryPick ≠ ADD_NEW → effectiveCategory s = jsTrim s.categoryPick)) ∧
    ((s.propertyPick = ADD_NEW → effectiveProperty s = jsTrim s.propertyNew) ∧
     (s.propertyPick ≠ ADD_NEW → effectiveProperty s = jsTrim s.propertyPick)) ∧
    ((s.subPropertyPick = ADD_NEW → effectiveSubProperty s = jsTrim s.subPropertyNew) ∧
     (s.subPropertyPick ≠ ADD_NEW → effectiveSubProperty s = jsTrim s.subPropertyPick)) ∧
    effectiveCategory (setCategoryNewF "Armor" (setCategoryPickF ADD_NEW s)) = "Armor" ∧
    (∀ v, v ≠ s.categoryPick →
      (setCategoryPickF v s).propertyPick = "" ∧ (setCategoryPickF v s).propertyNew = "" ∧
      (setCategoryPickF v s).subPropertyPick = "" ∧
      (setCategoryPickF v s).subPropertyNew = "" ∧
      effectiveProperty (setCategoryPickF v s) = "" ∧
      effectiveSubProperty (setCategoryPickF v s) = "") ∧
    (∀ v, v ≠ s.propertyPick →
      (setPropertyPickF v s).subPropertyPick = "" ∧
      (setPropertyPickF v s).subPropertyNew = "" ∧
      effectiveSubProperty (setPropertyPickF v s) = "" ∧
      (setPropertyPickF v s).categoryPick = s.categoryPick ∧
      (setPropertyPickF v s).categoryNew = s.categoryNew) ∧
    (∀ v, v ≠ s.subPropertyPick →
      (setSubPropertyPickF v s).categoryPick = s.categoryPick ∧
      (setSubPropertyPickF v s).categoryNew = s.categoryNew ∧
      (setSubPropertyPickF v s).propertyPick = s.propertyPick ∧
      (setSubPropertyPickF v s).propertyNew = s.propertyNew) := by
  refine ⟨⟨?_, ?_⟩, ⟨?_, ?_⟩, ⟨?_, ?_⟩, ?_, fun v _ => ?_, fun v _ => ?_, fun v _ => ?_⟩
  · intro h
    rw [effectiveCategory, if_pos h]
  · intro h
    rw [effectiveCategory, if_neg h]
  · intro h
    rw [effectiveProperty, if_pos h]
  · intro h
    rw [effectiveProperty, if_neg h]
  · intro h
    rw [effectiveSubProperty, if_pos h]
  · intro h
    rw [effectiveSubProperty, if_neg h]
  · rw [effectiveCategory]
    simp only [setCategoryNewF, setCategoryPickF, if_pos rfl]
    decide
  · refine ⟨rfl, rfl, rfl, rfl, ?_, ?_⟩ <;>
      simp [effectiveProperty, effectiveSubProperty, setCategoryPickF, ADD_NEW, jsTrim, jsTrimL]
  · refine ⟨rfl, rfl, ?_, rfl, rfl⟩
    simp [effectiveSubProperty, setPropertyPickF, ADD_NEW, jsTrim, jsTrimL]
  · exact ⟨rfl, rfl, rfl, rfl⟩

/-- Witness for C8 at the add-new form `wFormAdd`. -/
theorem taxonomy_resolution_witness :
    wFormAdd.categoryPick = ADD_NEW ∧ effectiveCategory wFormAdd = jsTrim wFormAdd.categoryNew :=
  ⟨rfl, (taxonomy_resolution wFormAdd).1.1 rfl⟩

/-! ## C2: promote on a non-unsorted item is a no-op -/

/-- C2: when the item status is not `unsorted`, promote performs no store
or object-store side effect and reports the already-promoted message
instead of an error. -/
theorem promote_noop_when_not_unsorted (env : PromoteEnv) (userId itemId : String)
    (item : IntakeItem) (files : List IntakeFile) (form : FormState)
    (st : Store) (os : ObjStore) (h : item.status ≠ Status.unsorted) :
    promote env userId itemId item files form st os = (.noop alreadyPromotedMsg, st, os) := by
  rw [promote, if_pos h]

/-- Witness for C2 at the already-promoted item `wItemPromoted`. -/
theorem promote_noop_when_not_unsorted_witness :
    wItemPromoted.status ≠ Status.unsorted ∧
    promote wEnv "U" "I1" wItemPromoted [wFile] wForm wStore wOs =
      (.noop alreadyPromotedMsg, wStore, wOs) :=
  ⟨by decide, promote_noop_when_not_unsorted wEnv "U" "I1" wItemPromoted [wFile] wForm
    wStore wOs (by decide)⟩

/-! ## C3: promote with an empty re-fetched file list fails cleanly -/

/-- C3: for an unsorted item whose store holds no intake-file rows, promote
returns an error and no write has been attempted: the store and the object
store are unchanged (in particular no asset row was inserted). -/
theorem promote_no_files_errors (env : PromoteEnv) (userId itemId : String)
    (item : IntakeItem) (files : List IntakeFile) (form : FormState)
    (st : Store) (os : ObjStore) (h1 : item.status = Status.unsorted)
    (h2 : st.intake_files.filter (fun f => f.intake_item_id == itemId) = []) :
    ∃ e, promote env userId itemId item files form st os = (.error e, st, os) := by
  by_cases hn : resolvedName form.rawName item.raw_name files = ""
  · exact ⟨"Name is required before promoting.", by simp [promote, h1, hn]⟩
  · by_cases hc : effectiveCategory form = ""
    · exact ⟨"Category is required before promoting.", by simp [promote, h1, hn, hc]⟩
    · by_cases hp : effectiveProperty form = ""
      · exact ⟨"Property is required before promoting.", by simp [promote, h1, hn, hc, hp]⟩
      · cases hfe : env.filesSelectErr with
        | some e => exact ⟨e, by simp [promote, h1, hn, hc, hp, hfe]⟩
        | none =>
          exact ⟨"No files found to promote.", by
            simp [promote, h1, hn, hc, hp, hfe, h2, List.insertionSort]⟩

/-- Witness for C3: the unsorted item `I1` against a store without intake
files. -/
theorem promote_no_files_errors_witness :
    wItem.status = Status.unsorted ∧
    wStoreNoFiles.intake_files.filter (fun f => f.intake_item_id == "I1") = [] ∧
    ∃ e, promote wEnv "U" "I1" wItem [wFile] wForm wStoreNoFiles wOs =
      (.error e, wStoreNoFiles, wOs) :=
  ⟨rfl, by decide, promote_no_files_errors wEnv "U" "I1" wItem [wFile] wForm
    wStoreNoFiles wOs rfl (by decide)⟩

/-! ## C6: bulk-fix staging update comes only after a successful catalog update -/

/-- C6: whenever the staging (`intake_items`) update is issued by the apply
execution, the catalog (`assets`) update was issued before it and had
succeeded, and the final store keeps the applied catalog update even if the
staging update then fails (no rollback). -/
theorem applyFix_staging_order (env : BulkEnv) (userId : String) (s : BulkState)
    (st : Store) (h : BulkOp.intakeUpdate ∈ (applyFix env userId s st).2.2) :
    env.assetsUpdErr = none ∧
    BulkOp.assetsUpdate ∈ (applyFix env userId s st).2.2 ∧
    (applyFix env userId s st).2.1.assets =
      bulkAssetsUpdated st.assets s.field (jsTrim s.fromValue) (jsTrim s.toValue) := by
  by_cases h1 : s.previewRan = false
  · simp [applyFix, h1] at h
  · by_cases h2 : jsTrim s.fromValue = ""
    · simp [applyFix, h1, h2] at h
    · by_cases h3 : jsTrim s.toValue = ""
      · simp [applyFix, h1, h2, h3] at h
      · by_cases h4 : jsTrim s.fromValue = jsTrim s.toValue
        · simp [applyFix, h1, h2, h3, h4] at h
        · by_cases h5 : s.previewCountAssets.getD 0 ≤ 0
          · simp [applyFix, h1, h2, h3, h4, h5] at h
          · by_cases h6 : jsToUpper (jsTrim s.confirmText) = "APPLY"
            · cases henv : env.assetsUpdErr with
              | some e => simp [applyFix, h1, h2, h3, h4, h5, h6, henv] at h
              | none =>
                by_cases h7 : s.includeIntake
                · cases hie : env.intakeUpdErr with
                  | some e =>
                    simp [applyFix, h1, h2, h3, h4, h5, h6, henv, h7, hie]
                  | none =>
                    cases haf : env.auditFail <;>
                      simp [applyFix, h1, h2, h3, h4, h5, h6, henv, h7, hie, haf]
                · simp [applyFix, h1, h2, h3, h4, h5, h6, henv, h7] at h
            · simp [applyFix, h1, h2, h3, h4, h5, h6] at h

/-! ## C1: postconditions of a successful promotion -/

theorem copyFiles_ok_length (env : PromoteEnv) (assetId : String) (fs : List IntakeFile) :
    ∀ (i : Nat) (os os' : ObjStore) (afs : List AssetFile),
      copyFiles env assetId i fs os = (.ok afs, os') → afs.length = fs.length := by
  induction fs with
  | nil =>
    intro i os os' afs h
    rw [copyFiles] at h
    simp only [Prod.mk.injEq, Except.ok.injEq] at h
    rw [← h.1]
    rfl
  | cons f fs ih =>
    intro i os os' afs h
    rw [copyFiles] at h
    cases hse : env.signedUrlErr i with
    | some e => rw [hse] at h; simp at h
    | none =>
      rw [hse] at h
      cases hok : env.fetchOk i with
      | false => rw [hok] at h; simp at h
      | true =>
        rw [hok, if_neg (by decide : ¬(true = false))] at h
        cases hue : env.uploadErr i with
        | some e => rw [hue] at h; simp at h
        | none =>
          rw [hue] at h
          cases hcf : copyFiles env assetId (i + 1) fs
              (("assets", (mkAssetFile env assetId i f).object_path) :: os) with
          | mk res os2 =>
            rw [hcf] at h
            cases res with
            | error e => simp at h
            | ok afs2 =>
              simp only [Prod.mk.injEq, Except.ok.injEq] at h
              obtain ⟨h1, -⟩ := h
              subst h1
              simp [ih (i + 1) _ _ afs2 hcf]

theorem deleteIntakeOriginals_ok (env : PromoteEnv) (itemId : String) (st : Store)
    (os : ObjStore) (k : Nat) (st' : Store) (os' : ObjStore)
    (h : deleteIntakeOriginals env itemId st os = (.ok k, st', os')) :
    st'.intake_items = st.intake_items ∧ st'.assets = st.assets ∧
    st'.asset_files = st.asset_files ∧ st'.audit_log = st.audit_log ∧
    st'.intake_files = st.intake_files.filter (fun f => f.intake_item_id != itemId) := by
  cases hde : env.delSelectErr with
  | some e => simp [deleteIntakeOriginals, hde] at h
  | none =>
    simp only [deleteIntakeOriginals, hde] at h
    split at h
    · rename_i hlen
      simp only [Prod.mk.injEq, Except.ok.injEq] at h
      obtain ⟨-, h2, -⟩ := h
      subst h2
      refine ⟨rfl, rfl, rfl, rfl, ?_⟩
      have hnil : st.intake_files.filter (fun f => f.intake_item_id == itemId) = [] :=
        List.length_eq_zero.mp hlen
      have hall := List.filter_eq_nil_iff.mp hnil
      rw [eq_comm, List.filter_eq_self]
      intro a ha
      have hb := hall a ha
      simp only [bne_iff_ne, ne_eq]
      intro heq2
      exact hb (by simp [heq2])
    · split at h
      · simp at h
      · split at h
        · simp at h
        · simp only [Prod.mk.injEq, Except.ok.injEq] at h
          obtain ⟨-, h2, -⟩ := h
          subst h2
          exact ⟨rfl, rfl, rfl, rfl, rfl⟩

theorem promote_ok_shape (env : PromoteEnv) (userId itemId : String) (item : IntakeItem)
    (files : List IntakeFile) (form : FormState) (st : Store) (os : ObjStore)
    (aid m : String) (st' : Store) (os' : ObjStore)
    (h : promote env userId itemId item files form st os = (.ok aid m, st', os')) :
    ∃ a afs,
      Asset.tags a = tags form.tagsText ∧
      st'.assets = st.assets ++ [a] ∧
      st'.asset_files = st.asset_files ++ afs ∧
      afs.length = (st.intake_files.filter (fun f => f.intake_item_id == itemId)).length ∧
      0 < (st.intake_files.filter (fun f => f.intake_item_id == itemId)).length ∧
      st'.intake_files = st.intake_files.filter (fun f => f.intake_item_id != itemId) ∧
      st'.intake_items = st.intake_items.map (fun it =>
        if it.id = itemId then { it with status := Status.promoted } else it) := by
  by_cases hs : item.status = Status.unsorted
  · by_cases hn : resolvedName form.rawName item.raw_name files = ""
    · simp [promote, hs, hn] at h
    · by_cases hc : effectiveCategory form = ""
      · simp [promote, hs, hn, hc] at h
      · by_cases hp : effectiveProperty form = ""
        · simp [promote, hs, hn, hc, hp] at h
        · cases hfe : env.filesSelectErr with
          | some e => simp [promote, hs, hn, hc, hp, hfe] at h
          | none =>
            simp only [promote, if_neg (not_not_intro hs), if_neg hn, if_neg hc,
              if_neg hp, hfe] at h
            split at h
            · simp at h
            · rename_i hlen
              split at h
              · simp at h
              · split at h
                · simp at h
                · rename_i afs1 os1 hcopy
                  split at h
                  · simp at h
                  · split at h
                    · simp at h
                    · split at h
                      · simp at h
                      · rename_i k st4 os2 hdel
                        obtain ⟨hii, hak, haf, -, hif⟩ :=
                          deleteIntakeOriginals_ok env itemId _ os1 k st4 os2 hdel
                        have hcl := copyFiles_ok_length env env.newAssetId _ 0 os os1 afs1 hcopy
                        simp only [List.length_insertionSort] at hcl
                        have hpos : 0 < (st.intake_files.filter
                            (fun f => f.intake_item_id == itemId)).length := by
                          rw [← hcl]
                          rcases Nat.eq_zero_or_pos afs1.length with h0 | h0
                          · exfalso
                            apply hlen
                            rw [List.length_insertionSort, ← hcl, h0]
                          · exact h0
                        split at h
                        all_goals
                          simp only [Prod.mk.injEq, PromoteResult.ok.injEq] at h
                          obtain ⟨-, h2, -⟩ := h
                          subst h2
                          refine ⟨promotedAsset env userId item files form, afs1,
                            rfl, ?_, ?_, hcl, hpos, ?_, ?_⟩ <;> simp_all
  · simp [promote, hs] at h

/-- C1: a promotion that completes successfully on an unsorted item holding
n intake files (n at least 1) inserts exactly one asset row and exactly n
asset-file rows, leaves zero intake-file rows for the item, and sets the
item status to promoted. -/
theorem promote_success_postconditions (env : PromoteEnv) (userId itemId : String)
    (item : IntakeItem) (files : List IntakeFile) (form : FormState)
    (st : Store) (os : ObjStore) (aid m : String) (st' : Store) (os' : ObjStore)
    (hstatus : item.status = Status.unsorted)
    (hn : 0 < (st.intake_files.filter (fun f => f.intake_item_id == itemId)).length)
    (h : promote env userId itemId item files form st os = (.ok aid m, st', os')) :
    st'.assets.length = st.assets.length + 1 ∧
    st'.asset_files.length = st.asset_files.length +
      (st.intake_files.filter (fun f => f.intake_item_id == itemId)).length ∧
    st'.intake_files.filter (fun f => f.intake_item_id == itemId) = [] ∧
    ∀ it ∈ st'.intake_items, it.id = itemId → it.status = Status.promoted := by
  obtain ⟨a, afs, -, h1, h2, h3, -, h4, h5⟩ :=
    promote_ok_shape env userId itemId item files form st os aid m st' os' h
  refine ⟨by simp [h1], by simp [h2, h3], ?_, ?_⟩
  · apply List.filter_eq_nil_iff.mpr
    intro f hf
    rw [h4, List.mem_filter] at hf
    have hne := hf.2
    simp only [bne_iff_ne, ne_eq] at hne
    simp [hne]
  · intro it hit hid
    rw [h5, List.mem_map] at hit
    obtain ⟨it0, hit0, rfl⟩ := hit
    by_cases hid0 : it0.id = itemId
    · simp [hid0]
    · rw [if_neg hid0] at hid ⊢
      exact absurd hid hid0

/-- Witness for C1: the concrete one-file promotion of item `I1`. -/
theorem promote_success_postconditions_witness :
    wItem.status = Status.unsorted ∧
    0 < (wStore.intake_files.filter (fun f => f.intake_item_id == "I1")).length ∧
    ((promote wEnv "U" "I1" wItem [wFile] wForm wStore wOs).2.1.assets.length =
        wStore.assets.length + 1 ∧
     (promote wEnv "U" "I1" wItem [wFile] wForm wStore wOs).2.1.asset_files.length =
        wStore.asset_files.length +
          (wStore.intake_files.filter (fun f => f.intake_item_id == "I1")).length ∧
     (promote wEnv "U" "I1" wItem [wFile] wForm wStore wOs).2.1.intake_files.filter
        (fun f => f.intake_item_id == "I1") = [] ∧
     ∀ it ∈ (promote wEnv "U" "I1" wItem [wFile] wForm wStore wOs).2.1.intake_items,
        it.id = "I1" → it.status = Status.promoted) :=
  ⟨rfl, by decide,
    promote_success_postconditions wEnv "U" "I1" wItem [wFile] wForm wStore wOs
      "A1" (promoteSuccessMsg 1)
      (promote wEnv "U" "I1" wItem [wFile] wForm wStore wOs).2.1
      (promote wEnv "U" "I1" wItem [wFile] wForm wStore wOs).2.2
      rfl (by decide) (by decide)⟩

/-- Witness for C6: catalog update succeeds, staging update fails. -/
theorem applyFix_staging_order_witness :
    BulkOp.intakeUpdate ∈ (applyFix wBulkEnv "U" wBulkReady wStore).2.2 ∧
    (wBulkEnv.assetsUpdErr = none ∧
     BulkOp.assetsUpdate ∈ (applyFix wBulkEnv "U" wBulkReady wStore).2.2 ∧
     (applyFix wBulkEnv "U" wBulkReady wStore).2.1.assets =
       bulkAssetsUpdated wStore.assets wBulkReady.field (jsTrim wBulkReady.fromValue)
         (jsTrim wBulkReady.toValue)) :=
  ⟨by decide, applyFix_staging_order wBulkEnv "U" wBulkReady wStore (by decide)⟩

/-! ## C7: the resolved-name fallback chain -/

/-- Counterexample to C7 as stated: with a whitespace-only edited name, a
non-empty stored name and a file `photo.jpg`, the code resolves the name to
`photo` (the non-empty untrimmed edited name short-circuits the chain
before trimming, skipping the stored name), while the claimed chain of
trimmed values resolves to `Stored`. -/
theorem resolvedName_claim_counterexample :
    resolvedName " " (some "Stored") [wFile] = "photo" ∧
    resolvedNameClaimed " " (some "Stored") [wFile] = "Stored" ∧
    resolvedName " " (some "Stored") [wFile] ≠
      resolvedNameClaimed " " (some "Stored") [wFile] :=
  ⟨by decide, by decide, by decide⟩

/-- C7 amended: the resolved name takes the explicit edited name if
non-empty, else the stored name (empty when absent), and trims the chosen
value; only an empty trimmed choice falls back to the first file name with
its extension stripped.  An unsorted item with empty name and no file fails
with the Name-is-required error with the stores untouched, and an empty
name with a file `photo.jpg` resolves to `photo`. -/
theorem resolvedName_amended_spec :
    (∀ (r : String) (i : Option String) (fs : List IntakeFile),
      resolvedName r i fs = resolvedNameAmended r i fs) ∧
    (∀ (env : PromoteEnv) (userId itemId : String) (item : IntakeItem)
       (form : FormState) (st : Store) (os : ObjStore),
      item.status = Status.unsorted → form.rawName = "" → item.raw_name = none →
      promote env userId itemId item [] form st os =
        (.error "Name is required before promoting.", st, os)) ∧
    (∀ f : IntakeFile, f.file_name = "photo.jpg" → resolvedName "" none [f] = "photo") := by
  refine ⟨?_, ?_, ?_⟩
  · intro r i fs
    simp only [resolvedName, resolvedNameAmended]
    have h0 : jsTrim "" = "" := rfl
    by_cases hr : r = ""
    · by_cases hi : i.getD "" = ""
      · simp [jsOr, hr, hi, h0]
      · simp [jsOr, hr, hi]
    · simp [jsOr, hr]
  · intro env userId itemId item form st os hstat hraw hstored
    have hname : resolvedName form.rawName item.raw_name [] = "" := by
      rw [hraw, hstored]
      decide
    simp [promote, hstat, hname]
  · intro f hf
    simp only [resolvedName, jsOr, hf]
    decide

/-- Witness for the amended C7 scenario at the file `photo.jpg`. -/
theorem resolvedName_amended_spec_witness :
    wFile.file_name = "photo.jpg" ∧ resolvedName "" none [wFile] = "photo" :=
  ⟨rfl, resolvedName_amended_spec.2.2 wFile rfl⟩

end ForgeFilament
